import Mathlib

/-!
Verification of the TinyLink link-creation and redirect subsystem.

The definitions below are a shallow embedding of the repository's core:
the links table (database/schema.sql), the create and list handlers
(src/app/api/links/route.ts, stored in src/app/layout.tsx of this copy),
the single-link GET and DELETE handlers and the redirect handler
(app/api/links/[code]/route and app/[code]/route, given in
docs/Development-Guide.md and the unnamed route file), and the helpers
generateRandomCode, validateCode and validateUrl from src/lib/utils.ts.
SQL timestamps are modelled as natural numbers; the database is a list of
rows; Math.random's stream of draws is an explicit parameter.
-/

namespace TinyLink

/-- row of the links table (database/schema.sql): id SERIAL PRIMARY KEY,
code VARCHAR(8) UNIQUE NOT NULL, url TEXT NOT NULL, clicks INTEGER DEFAULT 0,
last_clicked TIMESTAMP (nullable), created_at TIMESTAMP DEFAULT NOW().
Timestamps are modelled as Nat. -/
structure Link where
  id : Nat
  code : String
  url : String
  clicks : Nat
  last_clicked : Option Nat
  created_at : Nat
deriving Repr, DecidableEq

/-- the links table: a list of rows, in insertion order. -/
abbrev DB := List Link

/-- whether a SELECT over the code column finds a row: models both the
existence probe in the create handler's retry loop and the UNIQUE
constraint check the INSERT performs. -/
def codeExists (db : DB) (c : String) : Bool :=
  db.any (fun l => l.code == c)

/-- SELECT * FROM links WHERE code = c, taking the first matching row. -/
def lookupByCode (db : DB) (c : String) : Option Link :=
  db.find? (fun l => l.code == c)

/-- INSERT INTO links (code, url) VALUES (c, u): the remaining columns take
their schema defaults clicks = 0, last_clicked = NULL, created_at = NOW(). -/
def insertLink (db : DB) (c u : String) (id now : Nat) : DB :=
  db ++ [{ id := id, code := c, url := u, clicks := 0, last_clicked := none, created_at := now }]

/-- UPDATE links SET clicks = clicks + 1, last_clicked = NOW() WHERE code = c. -/
def updateClick (db : DB) (c : String) (now : Nat) : DB :=
  db.map (fun l =>
    if l.code == c then { l with clicks := l.clicks + 1, last_clicked := some now } else l)

/-- outcome of the redirect handler: a 302 redirect to the stored url, or a
404 Not Found body. -/
inductive VisitResult where
  | redirect (url : String)
  | notFound
deriving Repr, DecidableEq

/-- the GET handler of app/[code]/route: inside one transaction it SELECTs
the row by code, rolls back with 404 when no row exists, otherwise UPDATEs
clicks and last_clicked, commits, and issues a 302 redirect to the url
captured by the SELECT. The whole transaction is run here against a single
database state. -/
def recordClickAndFetch (db : DB) (c : String) (now : Nat) : DB × VisitResult :=
  match lookupByCode db c with
  | none => (db, .notFound)
  | some link => (updateClick db c now, .redirect link.url)

/-- the same redirect handler with its two SQL statements evaluated against
the database states current at their execution times: dbAtLookup when the
SELECT runs and dbAtUpdate when the UPDATE runs, so a write committed by
another transaction between the two statements is visible to the UPDATE
(PostgreSQL READ COMMITTED) but not to the SELECT. -/
def recordClickInterleaved (dbAtLookup dbAtUpdate : DB) (c : String) (now : Nat) :
    DB × VisitResult :=
  match lookupByCode dbAtLookup c with
  | none => (dbAtUpdate, .notFound)
  | some link => (updateClick dbAtUpdate c now, .redirect link.url)

/-- outcome of the DELETE handler: 200 with a success message, or 404. -/
inductive DeleteResult where
  | deleted
  | notFound
deriving Repr, DecidableEq

/-- the DELETE handler of app/api/links/[code]/route: DELETE FROM links
WHERE code = c RETURNING *; an empty returned row set yields 404. -/
def deleteByCode (db : DB) (c : String) : DB × DeleteResult :=
  if codeExists db c then (db.filter (fun l => !(l.code == c)), .deleted)
  else (db, .notFound)

/-- the GET handler of app/api/links/[code]/route: point lookup, 404 when
absent, no side effect. -/
def getByCode (db : DB) (c : String) : Option Link :=
  lookupByCode db c

/-- the GET handler of app/api/links/route: SELECT * FROM links ORDER BY
created_at DESC, with no LIMIT or OFFSET. -/
def listAll (db : DB) : List Link :=
  db.mergeSort (fun a b => decide (b.created_at ≤ a.created_at))

/-- the 62-character alphabet of src/lib/utils.ts generateRandomCode. -/
def codeChars : List Char :=
  "ABCDEFGHIJKLMNOPQRSTUVWXYZabcdefghijklmnopqrstuvwxyz0123456789".toList

theorem codeChars_length : codeChars.length = 62 := rfl

/-- generateRandomCode of src/lib/utils.ts: length characters drawn from
codeChars by Math.floor(Math.random() * 62). The stream r gives the
successive floor results (each necessarily in 0..61 since Math.random is in
the half-open unit interval); start is the stream position at call time. -/
def generateRandomCode (len : Nat) (r : Nat → Fin 62) (start : Nat) : String :=
  String.mk ((List.range len).map (fun i =>
    codeChars.get (Fin.cast codeChars_length.symm (r (start + i)))))

/-- membership in the character class of the regex used by validateCode. -/
def isCodeChar (ch : Char) : Bool :=
  (decide ('A' ≤ ch) && decide (ch ≤ 'Z')) ||
  (decide ('a' ≤ ch) && decide (ch ≤ 'z')) ||
  (decide ('0' ≤ ch) && decide (ch ≤ '9'))

/-- validateCode of src/lib/utils.ts: tests the anchored pattern requiring 6
to 8 characters, each in the class A-Za-z0-9. -/
def validateCode (code : String) : Bool :=
  decide (6 ≤ code.length) && decide (code.length ≤ 8) && code.toList.all isCodeChar

/-- validateUrl of src/lib/utils.ts: the source parses the candidate with
the platform URL constructor and accepts exactly protocol http: or https:.
The WHATWG parser is platform code, not repository code; an absolute
http(s) URL is modelled as an explicit http:// or https:// scheme prefix
followed by a nonempty remainder. -/
def validateUrl (url : String) : Bool :=
  (url.toList.take 7 == "http://".toList && decide (7 < url.length)) ||
  (url.toList.take 8 == "https://".toList && decide (8 < url.length))

/-- request body of the create handler. A missing customCode field is none;
JavaScript truthiness makes the empty string behave like a missing field. -/
structure CreateLinkRequest where
  url : String
  customCode : Option String

/-- response of the create handler: the 201 body fields on success, or the
error responses 400 (invalid url), 400 (invalid code format), 409
(duplicate key, PostgreSQL error 23505). allocationExhausted is the error
kind the specification's taxonomy names for five exhausted random retries;
the handler as written never produces it. -/
inductive CreateResult where
  | created (code url shortUrl : String) (clicks : Nat) (createdAt : Nat)
  | invalidUrl
  | invalidCodeFormat
  | codeTaken
  | allocationExhausted
deriving Repr, DecidableEq

/-- the INSERT at the end of the create handler: a duplicate code makes the
UNIQUE constraint raise error 23505, caught and answered with 409 and no
row written; otherwise the row is inserted and the 201 body echoes the
RETURNING * row. probes passes through the count of existence-check SELECT
queries the random retry loop ran before this insert. -/
def insertStep (db : DB) (c u : String) (id now : Nat) (baseUrl : String) (probes : Nat) :
    DB × CreateResult × Nat :=
  if codeExists db c then (db, .codeTaken, probes)
  else (insertLink db c u id now, .created c u (baseUrl ++ "/" ++ c) 0 now, probes)

/-- the collision retry loop of the create handler: while attempts < 5, an
existence-check SELECT probes the current code; a free code breaks out, a
taken code draws a fresh generateRandomCode(6) and increments attempts.
When attempts reaches 5 the loop exits keeping the last drawn, never
probed, code. The loop guard is expressed structurally through remaining,
kept equal to 5 - attempts; attempts drives the positions consumed from
the random stream. Returns the final code and how many probes ran. -/
def randomLoopAux (db : DB) (r : Nat → Fin 62) :
    Nat → Nat → String → String × Nat
  | 0, _, code => (code, 0)
  | remaining + 1, attempts, code =>
    if codeExists db code then
      let res := randomLoopAux db r remaining (attempts + 1)
        (generateRandomCode 6 r (6 * (attempts + 1)))
      (res.1, res.2 + 1)
    else (code, 1)

/-- the retry loop entered with attempts = 0, so 5 iterations remain. -/
def randomLoop (db : DB) (r : Nat → Fin 62) (code : String) : String × Nat :=
  randomLoopAux db r 5 0 code

/-- the random-code branch of the create handler: an initial
generateRandomCode(6), the retry loop, then the INSERT. -/
def randomPath (db : DB) (u : String) (r : Nat → Fin 62) (id now : Nat) (baseUrl : String) :
    DB × CreateResult × Nat :=
  let pick := randomLoop db r (generateRandomCode 6 r 0)
  insertStep db pick.1 u id now baseUrl pick.2

/-- the POST handler of app/api/links/route: validates the url (a missing
or empty url is falsy), then branches on the truthiness of customCode —
a nonempty custom code is format-checked and used unchanged with no
existence probe, while a missing or empty custom code takes the
random-generation branch. The last component counts the existence-check
SELECT queries run by the retry loop. -/
def POST (db : DB) (req : CreateLinkRequest) (r : Nat → Fin 62) (id now : Nat)
    (baseUrl : String) : DB × CreateResult × Nat :=
  if req.url == "" || !validateUrl req.url then (db, .invalidUrl, 0)
  else
    match req.customCode with
    | some c =>
      if c == "" then randomPath db req.url r id now baseUrl
      else if validateCode c then insertStep db c req.url id now baseUrl 0
      else (db, .invalidCodeFormat, 0)
    | none => randomPath db req.url r id now baseUrl

/-- the five Link Store operations, as one alphabet for whole-store
invariants. create carries the code the allocator produced together with
the fresh SERIAL id and the NOW() timestamp. -/
inductive StoreOp where
  | create (code url : String) (id now : Nat)
  | get (code : String)
  | list
  | del (code : String)
  | visit (code : String) (now : Nat)

/-- state change of one store operation. create goes through the INSERT of
insertStep, so a duplicate code leaves the table unchanged; get and list
are read-only; del and visit are the handlers above. -/
def applyOp (db : DB) : StoreOp → DB
  | .create c u id now => if codeExists db c then db else insertLink db c u id now
  | .get _ => db
  | .list => db
  | .del c => (deleteByCode db c).1
  | .visit c now => (recordClickAndFetch db c now).1

/-- no two rows share a code: the UNIQUE constraint of the schema. -/
def codesUnique (db : DB) : Prop :=
  db.Pairwise (fun a b => a.code ≠ b.code)

instance (db : DB) : Decidable (codesUnique db) := by
  unfold codesUnique; infer_instance

/-- a concrete stored link used by witnesses. -/
def demoLink : Link :=
  { id := 1, code := "abc123", url := "https://example.com", clicks := 3,
    last_clicked := none, created_at := 0 }

/-- a constant random stream: every Math.floor(Math.random() * 62) draw
returns 0, so every generated code is AAAAAA. -/
def constZero : Nat → Fin 62 := fun _ => ⟨0, by decide⟩

/-- a concrete stored link whose code the constant stream always draws. -/
def demoTaken : Link :=
  { id := 1, code := "AAAAAA", url := "https://example.com", clicks := 3,
    last_clicked := none, created_at := 0 }

/-- language of the anchored pattern of 6 to 8 characters from A-Za-z0-9,
written directly from the regex of the specification for comparison with
the validateCode of the source. -/
def matchesCodeRegex (code : String) : Prop :=
  6 ≤ code.length ∧ code.length ≤ 8 ∧
    ∀ ch ∈ code.toList,
      ('A' ≤ ch ∧ ch ≤ 'Z') ∨ ('a' ≤ ch ∧ ch ≤ 'z') ∨ ('0' ≤ ch ∧ ch ≤ '9')

instance (code : String) : Decidable (matchesCodeRegex code) := by
  unfold matchesCodeRegex; infer_instance

/-! Helper lemmas shared by the claim theorems. -/

theorem generateRandomCode_length (len : Nat) (r : Nat → Fin 62) (start : Nat) :
    (generateRandomCode len r start).length = len := by
  simp [generateRandomCode, String.length]

theorem codeChars_all_code : codeChars.all isCodeChar = true := by decide

theorem generateRandomCode_chars (len : Nat) (r : Nat → Fin 62) (start : Nat) :
    ∀ ch ∈ (generateRandomCode len r start).toList, isCodeChar ch = true := by
  intro ch hch
  simp only [generateRandomCode, String.toList, String.mk, List.mem_map] at hch
  obtain ⟨i, _, rfl⟩ := hch
  exact List.all_eq_true.mp codeChars_all_code _ (List.get_mem _ _ _)

theorem validateUrl_ne_empty {u : String} (h : validateUrl u = true) : (u == "") = false := by
  cases hu : u == "" with
  | false => rfl
  | true =>
    have hu' : u = "" := by simpa using hu
    subst hu'
    exact absurd h (by decide)

theorem randomLoopAux_length {db : DB} {r : Nat → Fin 62} :
    ∀ (remaining attempts : Nat) (code : String), code.length = 6 →
      ((randomLoopAux db r remaining attempts code).1).length = 6 := by
  intro remaining
  induction remaining with
  | zero => intro attempts code h; simpa [randomLoopAux] using h
  | succ n ih =>
    intro attempts code h
    by_cases hc : codeExists db code = true
    · simpa [randomLoopAux, hc] using
        ih (attempts + 1) _ (generateRandomCode_length 6 r _)
    · simp only [Bool.not_eq_true] at hc
      simpa [randomLoopAux, hc] using h

theorem insertStep_snd (db : DB) (c u : String) (id now : Nat) (b : String) (probes : Nat) :
    (insertStep db c u id now b probes).2.1 = .codeTaken ∨
    (insertStep db c u id now b probes).2.1 = .created c u (b ++ "/" ++ c) 0 now := by
  unfold insertStep
  split <;> simp

theorem insertStep_characterize (db : DB) (c u : String) (id now : Nat) (b : String)
    (probes : Nat) :
    (codeExists db c = true ∧ insertStep db c u id now b probes = (db, .codeTaken, probes)) ∨
    (codeExists db c = false ∧ insertStep db c u id now b probes =
      (insertLink db c u id now, .created c u (b ++ "/" ++ c) 0 now, probes)) := by
  by_cases h : codeExists db c = true
  · exact Or.inl ⟨h, by simp [insertStep, h]⟩
  · rw [Bool.not_eq_true] at h
    exact Or.inr ⟨h, by simp [insertStep, h]⟩

/-- C8: every code produced by generateRandomCode on the default length-6
path has length exactly 6 and all its characters in the 62-character
alphabet A-Za-z0-9, and validateCode accepts a candidate exactly when it
matches the anchored pattern of 6 to 8 alphanumeric characters. -/
theorem c8_code_format :
    (∀ (r : Nat → Fin 62) (start : Nat),
      (generateRandomCode 6 r start).length = 6 ∧
      ∀ ch ∈ (generateRandomCode 6 r start).toList, isCodeChar ch = true) ∧
    (∀ code : String, validateCode code = true ↔ matchesCodeRegex code) := by
  constructor
  · intro r start
    exact ⟨generateRandomCode_length 6 r start, generateRandomCode_chars 6 r start⟩
  · intro code
    unfold validateCode matchesCodeRegex isCodeChar
    simp only [Bool.and_eq_true, decide_eq_true_eq, List.all_eq_true, Bool.or_eq_true]
    constructor
    · rintro ⟨⟨h1, h2⟩, h3⟩
      refine ⟨h1, h2, fun ch hch => ?_⟩
      rcases h3 ch hch with (h | h) | h <;> tauto
    · rintro ⟨h1, h2, h3⟩
      refine ⟨⟨h1, h2⟩, fun ch hch => ?_⟩
      rcases h3 ch hch with h | h | h <;> tauto

theorem c8_code_format_witness :
    (generateRandomCode 6 constZero 0).length = 6 ∧
    (validateCode "github" = true ↔ matchesCodeRegex "github") :=
  ⟨(c8_code_format.1 constZero 0).1, c8_code_format.2 "github"⟩

/-- C10: a create request whose customCode is the empty string behaves
exactly like one with no customCode: JavaScript truthiness sends it down
the random-generation branch, so it is never rejected with
invalidCodeFormat, and any code it creates is a generated 6-character
code. -/
theorem c10_empty_custom_code (db : DB) (url : String) (r : Nat → Fin 62) (id now : Nat)
    (b : String) :
    POST db ⟨url, some ""⟩ r id now b = POST db ⟨url, none⟩ r id now b ∧
    (POST db ⟨url, some ""⟩ r id now b).2.1 ≠ .invalidCodeFormat ∧
    (∀ cc u s cl ca, (POST db ⟨url, some ""⟩ r id now b).2.1 = .created cc u s cl ca →
      cc.length = 6) := by
  have heq : POST db ⟨url, some ""⟩ r id now b = POST db ⟨url, none⟩ r id now b := by
    simp [POST]
  have hlen : ((randomLoop db r (generateRandomCode 6 r 0)).1).length = 6 :=
    randomLoopAux_length 5 0 _ (generateRandomCode_length 6 r 0)
  refine ⟨heq, ?_, ?_⟩
  · rw [heq]
    unfold POST
    split
    · simp
    · unfold randomPath
      rcases insertStep_snd db (randomLoop db r (generateRandomCode 6 r 0)).1 url id now b
        (randomLoop db r (generateRandomCode 6 r 0)).2 with h | h <;> rw [h] <;> simp
  · intro cc u s cl ca hcr
    rw [heq] at hcr
    unfold POST at hcr
    split at hcr
    · simp at hcr
    · unfold randomPath at hcr
      rcases insertStep_characterize db (randomLoop db r (generateRandomCode 6 r 0)).1 url id
        now b (randomLoop db r (generateRandomCode 6 r 0)).2 with ⟨_, he⟩ | ⟨_, he⟩ <;>
        rw [he] at hcr
      · simp at hcr
      · simp only [] at hcr
        have : cc = (randomLoop db r (generateRandomCode 6 r 0)).1 := by
          cases hcr
          rfl
        rw [this]
        exact hlen

theorem c10_empty_custom_code_witness :
    POST [] ⟨"https://example.com", some ""⟩ constZero 2 5 "b"
      = POST [] ⟨"https://example.com", none⟩ constZero 2 5 "b" ∧
    (POST [] ⟨"https://example.com", some ""⟩ constZero 2 5 "b").2.1
      ≠ CreateResult.invalidCodeFormat ∧
    ("AAAAAA" : String).length = 6 := by
  have h := c10_empty_custom_code [] "https://example.com" constZero 2 5 "b"
  exact ⟨h.1, h.2.1,
    h.2.2 "AAAAAA" "https://example.com" ("b" ++ "/" ++ "AAAAAA") 0 5 (by decide)⟩

/-- C2 counterexample: with a single stored link of code AAAAAA and a
random stream that always draws 0, every generated code is AAAAAA, so all
5 existence checks collide; the handler then inserts the sixth AAAAAA,
hits the uniqueness constraint, and answers codeTaken (409) — not
allocationExhausted. -/
theorem c2_counterexample :
    POST [demoTaken] ⟨"https://example.com", none⟩ constZero 2 5 "http://localhost:3000"
      = ([demoTaken], .codeTaken, 5) ∧
    CreateResult.codeTaken ≠ CreateResult.allocationExhausted := by
  exact ⟨by decide, by decide⟩

/-- C2 amended: when all 5 existence-check attempts collide, the handler
does not surface allocationExhausted (no such outcome exists in the code);
it proceeds to insert a sixth, never-probed generated code, succeeding if
that code is free and failing with codeTaken if the uniqueness constraint
fires. -/
theorem c2_amended (db : DB) (url : String) (r : Nat → Fin 62) (id now : Nat) (b : String)
    (hurl : validateUrl url = true)
    (hcoll : ∀ k, k < 5 → codeExists db (generateRandomCode 6 r (6 * k)) = true) :
    POST db ⟨url, none⟩ r id now b = insertStep db (generateRandomCode 6 r 30) url id now b 5 ∧
    (POST db ⟨url, none⟩ r id now b).2.1 ≠ .allocationExhausted := by
  have hne := validateUrl_ne_empty hurl
  have h0 := hcoll 0 (by omega)
  have h1 := hcoll 1 (by omega)
  have h2 := hcoll 2 (by omega)
  have h3 := hcoll 3 (by omega)
  have h4 := hcoll 4 (by omega)
  norm_num at h0 h1 h2 h3 h4
  have hloop : randomLoop db r (generateRandomCode 6 r 0) = (generateRandomCode 6 r 30, 5) := by
    simp [randomLoop, randomLoopAux, h0, h1, h2, h3, h4]
  have hcond : ((url == "") || !validateUrl url) = false := by rw [hne, hurl]; rfl
  have hmain : POST db ⟨url, none⟩ r id now b
      = insertStep db (generateRandomCode 6 r 30) url id now b 5 := by
    unfold POST randomPath
    rw [hcond, hloop]
    simp
  refine ⟨hmain, ?_⟩
  rw [hmain]
  rcases insertStep_characterize db (generateRandomCode 6 r 30) url id now b 5 with
    ⟨_, he⟩ | ⟨_, he⟩ <;> rw [he] <;> simp

theorem c2_amended_witness :
    (POST [demoTaken] ⟨"https://example.com", none⟩ constZero 2 5 "b"
      = insertStep [demoTaken] (generateRandomCode 6 constZero 30)
          "https://example.com" 2 5 "b" 5) ∧
    (POST [demoTaken] ⟨"https://example.com", none⟩ constZero 2 5 "b").2.1
      ≠ CreateResult.allocationExhausted :=
  c2_amended [demoTaken] "https://example.com" constZero 2 5 "b" (by decide) (by decide)

/-- C4 counterexample: a delete of abc123 commits between the visit's
lookup and its increment; the increment finds nothing, yet the handler
answers with the 302 redirect captured at lookup, not with the 404 the
claim requires. -/
theorem c4_counterexample :
    recordClickInterleaved [demoLink] (deleteByCode [demoLink] "abc123").1 "abc123" 9
      = ([], .redirect "https://example.com") ∧
    VisitResult.redirect "https://example.com" ≠ VisitResult.notFound := by
  exact ⟨by decide, by decide⟩

/-- C4 amended: if a delete of the code commits between a concurrent
visit's lookup step and its increment step, the increment is a no-op (the
UPDATE matches no row, leaving the deleted state unchanged), but the visit
still answers with a 302 redirect to the url captured at lookup rather
than reporting NotFound. -/
theorem c4_amended (db : DB) (c : String) (now : Nat) (link : Link)
    (h : lookupByCode db c = some link) :
    updateClick (deleteByCode db c).1 c now = (deleteByCode db c).1 ∧
    recordClickInterleaved db (deleteByCode db c).1 c now
      = ((deleteByCode db c).1, .redirect link.url) := by
  have h' : db.find? (fun l => l.code == c) = some link := h
  have hex : codeExists db c = true := by
    unfold codeExists
    rw [List.any_eq_true]
    have hpc := List.find?_some h'
    exact ⟨link, List.mem_of_find?_eq_some h', by simpa using hpc⟩
  have hdel : (deleteByCode db c).1 = db.filter (fun l => !(l.code == c)) := by
    simp [deleteByCode, hex]
  have hupd : updateClick (deleteByCode db c).1 c now = (deleteByCode db c).1 := by
    unfold updateClick
    rw [hdel]
    have hfix : ∀ x ∈ db.filter (fun l => !(l.code == c)),
        (if x.code == c then { x with clicks := x.clicks + 1, last_clicked := some now }
         else x) = x := by
      intro x hx
      have hxc := (List.mem_filter.mp hx).2
      rw [Bool.not_eq_true'] at hxc
      simp [hxc]
    exact (List.map_congr_left hfix).trans (List.map_id _)
  refine ⟨hupd, ?_⟩
  unfold recordClickInterleaved
  rw [h, hupd]

theorem c4_amended_witness :
    updateClick (deleteByCode [demoLink] "abc123").1 "abc123" 9
      = (deleteByCode [demoLink] "abc123").1 ∧
    recordClickInterleaved [demoLink] (deleteByCode [demoLink] "abc123").1 "abc123" 9
      = ((deleteByCode [demoLink] "abc123").1, .redirect demoLink.url) :=
  c4_amended [demoLink] "abc123" 9 demoLink (by decide)

/-- C1: the redirect handler, run as the single committed transaction it
opens: an absent code aborts with no side effect and 404; a present code
has its row's clicks incremented by exactly 1 and last_clicked set to the
current time, every other row is untouched, and the response redirects to
the row's url, which the increment leaves unchanged. -/
theorem c1_record_click (db : DB) (c : String) (now : Nat) (hu : codesUnique db) :
    (lookupByCode db c = none → recordClickAndFetch db c now = (db, .notFound)) ∧
    (∀ link, lookupByCode db c = some link →
      link ∈ db ∧ link.code = c ∧
      (recordClickAndFetch db c now).2 = .redirect link.url ∧
      lookupByCode (recordClickAndFetch db c now).1 c
        = some { link with clicks := link.clicks + 1, last_clicked := some now } ∧
      (∀ l ∈ (recordClickAndFetch db c now).1, l.code = c →
        l = { link with clicks := link.clicks + 1, last_clicked := some now }) ∧
      (∀ l ∈ (recordClickAndFetch db c now).1, l.code ≠ c → l ∈ db) ∧
      (∀ l ∈ db, l.code ≠ c → l ∈ (recordClickAndFetch db c now).1)) := by
  constructor
  · intro h
    unfold recordClickAndFetch
    rw [h]
  · intro link h
    have h' : db.find? (fun l => l.code == c) = some link := h
    have hmem : link ∈ db := List.mem_of_find?_eq_some h'
    have hcode : link.code = c := by simpa using List.find?_some h'
    have hrec : recordClickAndFetch db c now = (updateClick db c now, .redirect link.url) := by
      unfold recordClickAndFetch
      rw [h]
    rw [hrec]
    refine ⟨hmem, hcode, rfl, ?_, ?_, ?_, ?_⟩
    · unfold lookupByCode updateClick
      rw [List.find?_map]
      have hpf : ((fun l : Link => l.code == c) ∘ (fun l : Link =>
          if l.code == c then { l with clicks := l.clicks + 1, last_clicked := some now }
          else l)) = (fun l : Link => l.code == c) := by
        funext x
        by_cases hx : (x.code == c) = true <;> simp [Function.comp, hx]
      rw [hpf, h']
      have hbc : (link.code == c) = true := by simpa using hcode
      exact congrArg some (if_pos hbc)
    · intro l hl hlc
      simp only [updateClick, List.mem_map] at hl
      obtain ⟨x, hx, hfx⟩ := hl
      by_cases hxc : (x.code == c) = true
      · have hxcode : x.code = c := by simpa using hxc
        have hxlink : x = link := by
          by_contra hne
          exact List.Pairwise.forall (fun _ _ hab => Ne.symm hab) hu hx hmem hne
            (hxcode.trans hcode.symm)
        rw [if_pos hxc] at hfx
        rw [← hfx, hxlink]
      · rw [Bool.not_eq_true] at hxc
        rw [if_neg (by simp [hxc])] at hfx
        subst hfx
        exact absurd hlc (by simpa using hxc)
    · intro l hl hlc
      simp only [updateClick, List.mem_map] at hl
      obtain ⟨x, hx, hfx⟩ := hl
      by_cases hxc : (x.code == c) = true
      · rw [if_pos hxc] at hfx
        subst hfx
        exact absurd (by simpa using hxc : x.code = c) hlc
      · rw [Bool.not_eq_true] at hxc
        rw [if_neg (by simp [hxc])] at hfx
        subst hfx
        exact hx
    · intro l hl hlc
      simp only [updateClick, List.mem_map]
      refine ⟨l, hl, ?_⟩
      have : (l.code == c) = false := by simpa using hlc
      simp [this]

theorem c1_record_click_witness :
    (recordClickAndFetch [demoLink] "abc123" 7).2 = VisitResult.redirect "https://example.com" ∧
    lookupByCode (recordClickAndFetch [demoLink] "abc123" 7).1 "abc123"
      = some { demoLink with clicks := 4, last_clicked := some 7 } := by
  have h := (c1_record_click [demoLink] "abc123" 7 (by decide)).2 demoLink (by decide)
  exact ⟨h.2.2.1, h.2.2.2.1⟩

/-- C5: across the five store operations, a row of the resulting table is
either a row that was already in the table (clicks preserved), a row just
created with clicks = 0, or — only for a visit — a row whose clicks are
exactly one more than before; no operation ever decrements or resets the
counter. -/
theorem c5_clicks_counter (db : DB) (op : StoreOp) (l : Link) (hl : l ∈ applyOp db op) :
    l ∈ db ∨
    (∃ c u id now, op = .create c u id now ∧ l.clicks = 0) ∨
    (∃ c now, op = .visit c now ∧ ∃ x, x ∈ db ∧ x.id = l.id ∧ x.code = l.code ∧
      x.url = l.url ∧ l.clicks = x.clicks + 1) := by
  cases op with
  | create c u id now =>
    simp only [applyOp] at hl
    split at hl
    · exact Or.inl hl
    · unfold insertLink at hl
      rcases List.mem_append.mp hl with hmem | hmem
      · exact Or.inl hmem
      · refine Or.inr (Or.inl ⟨c, u, id, now, rfl, ?_⟩)
        simp only [List.mem_singleton] at hmem
        rw [hmem]
  | get c =>
    simp only [applyOp] at hl
    exact Or.inl hl
  | list =>
    simp only [applyOp] at hl
    exact Or.inl hl
  | del c =>
    simp only [applyOp] at hl
    by_cases hc : codeExists db c = true
    · simp only [deleteByCode, hc, if_true] at hl
      exact Or.inl (List.mem_of_mem_filter hl)
    · rw [Bool.not_eq_true] at hc
      simp only [deleteByCode, hc] at hl
      exact Or.inl hl
  | visit c now =>
    simp only [applyOp] at hl
    unfold recordClickAndFetch at hl
    cases h : lookupByCode db c with
    | none =>
      rw [h] at hl
      exact Or.inl hl
    | some link =>
      rw [h] at hl
      simp only [updateClick, List.mem_map] at hl
      obtain ⟨x, hx, hfx⟩ := hl
      by_cases hxc : (x.code == c) = true
      · rw [if_pos hxc] at hfx
        exact Or.inr (Or.inr ⟨c, now, rfl, x, hx, by rw [← hfx], by rw [← hfx],
          by rw [← hfx], by rw [← hfx]⟩)
      · rw [Bool.not_eq_true] at hxc
        rw [if_neg (by simp [hxc])] at hfx
        subst hfx
        exact Or.inl hx

theorem c5_clicks_counter_witness :
    ({ demoLink with clicks := 4, last_clicked := some 7 } : Link) ∈ [demoLink] ∨
    (∃ c u id now, StoreOp.visit "abc123" 7 = .create c u id now ∧
      ({ demoLink with clicks := 4, last_clicked := some 7 } : Link).clicks = 0) ∨
    (∃ c now, StoreOp.visit "abc123" 7 = .visit c now ∧ ∃ x, x ∈ [demoLink] ∧
      x.id = ({ demoLink with clicks := 4, last_clicked := some 7 } : Link).id ∧
      x.code = ({ demoLink with clicks := 4, last_clicked := some 7 } : Link).code ∧
      x.url = ({ demoLink with clicks := 4, last_clicked := some 7 } : Link).url ∧
      ({ demoLink with clicks := 4, last_clicked := some 7 } : Link).clicks = x.clicks + 1) :=
  c5_clicks_counter [demoLink] (.visit "abc123" 7)
    { demoLink with clicks := 4, last_clicked := some 7 } (by decide)

theorem insertStep_created {db : DB} {c u : String} {id now : Nat} {b : String} {probes : Nat}
    {cc uu s : String} {cl ca : Nat}
    (h : (insertStep db c u id now b probes).2.1 = CreateResult.created cc uu s cl ca) :
    cc = c ∧ uu = u ∧ codeExists db c = false ∧
    (insertStep db c u id now b probes).1 = insertLink db c u id now := by
  rcases insertStep_characterize db c u id now b probes with ⟨_, he⟩ | ⟨hfree, he⟩
  · rw [he] at h
    simp at h
  · rw [he] at h
    simp only [CreateResult.created.injEq] at h
    obtain ⟨h1, h2, _, _, _⟩ := h
    exact ⟨h1.symm, h2.symm, hfree, by rw [he]⟩

theorem POST_cases (db : DB) (req : CreateLinkRequest) (r : Nat → Fin 62) (id now : Nat)
    (b : String) :
    POST db req r id now b = (db, .invalidUrl, 0) ∨
    POST db req r id now b = (db, .invalidCodeFormat, 0) ∨
    ∃ cX probes, POST db req r id now b = insertStep db cX req.url id now b probes := by
  obtain ⟨u0, cc0⟩ := req
  by_cases hv : ((u0 == "") || !validateUrl u0) = true
  · left
    simp only [POST]
    rw [if_pos hv]
  · rcases cc0 with _ | cX
    · refine Or.inr (Or.inr ⟨(randomLoop db r (generateRandomCode 6 r 0)).1,
        (randomLoop db r (generateRandomCode 6 r 0)).2, ?_⟩)
      simp only [POST]
      rw [if_neg hv]
      rfl
    · simp only [POST]
      rw [if_neg hv]
      by_cases hce : (cX == "") = true
      · rw [if_pos hce]
        exact Or.inr (Or.inr ⟨(randomLoop db r (generateRandomCode 6 r 0)).1,
          (randomLoop db r (generateRandomCode 6 r 0)).2, rfl⟩)
      · rw [if_neg hce]
        by_cases hvc : validateCode cX = true
        · rw [if_pos hvc]
          exact Or.inr (Or.inr ⟨cX, 0, rfl⟩)
        · rw [if_neg hvc]
          exact Or.inr (Or.inl rfl)

theorem lookup_insert_self (db : DB) (c u : String) (id now : Nat)
    (h : codeExists db c = false) :
    getByCode (insertLink db c u id now) c
      = some { id := id, code := c, url := u, clicks := 0, last_clicked := none,
               created_at := now } := by
  unfold getByCode lookupByCode insertLink
  rw [List.find?_append]
  have hnone : db.find? (fun l => l.code == c) = none := by
    rw [List.find?_eq_none]
    intro x hx hpx
    have : codeExists db c = true := by
      unfold codeExists
      rw [List.any_eq_true]
      exact ⟨x, hx, hpx⟩
    rw [this] at h
    cases h
  rw [hnone]
  simp

/-- C6: whenever a create request succeeds, fetching the created link by
the code of the 201 response yields a record whose url is exactly the url
of the request. -/
theorem c6_round_trip (db : DB) (req : CreateLinkRequest) (r : Nat → Fin 62) (id now : Nat)
    (b : String) (cc u s : String) (cl ca : Nat)
    (h : (POST db req r id now b).2.1 = .created cc u s cl ca) :
    ∃ l, getByCode (POST db req r id now b).1 cc = some l ∧ l.url = req.url := by
  rcases POST_cases db req r id now b with he | he | ⟨cX, probes, he⟩
  · rw [he] at h
    simp at h
  · rw [he] at h
    simp at h
  · rw [he] at h ⊢
    obtain ⟨hcc, -, hfree, hdb⟩ := insertStep_created h
    rw [hdb]
    subst hcc
    exact ⟨_, lookup_insert_self db cc req.url id now hfree, rfl⟩

theorem c6_round_trip_witness :
    ∃ l, getByCode (POST [] ⟨"https://example.com", some "github"⟩ constZero 2 5 "b").1
      "github" = some l ∧ l.url = "https://example.com" :=
  c6_round_trip [] ⟨"https://example.com", some "github"⟩ constZero 2 5 "b"
    "github" "https://example.com" ("b" ++ "/" ++ "github") 0 5 (by decide)

/-- C7: after a delete of a code succeeds, a get of the code answers 404,
a visit answers 404 without touching the table, a repeated delete answers
404, and a create reusing the code as a valid custom code succeeds. -/
theorem c7_deletion_finality (db : DB) (c u : String) (r : Nat → Fin 62) (id now : Nat)
    (b : String) (hdel : (deleteByCode db c).2 = .deleted) :
    getByCode (deleteByCode db c).1 c = none ∧
    recordClickAndFetch (deleteByCode db c).1 c now = ((deleteByCode db c).1, .notFound) ∧
    deleteByCode (deleteByCode db c).1 c = ((deleteByCode db c).1, .notFound) ∧
    (validateCode c = true → validateUrl u = true →
      POST (deleteByCode db c).1 ⟨u, some c⟩ r id now b =
        (insertLink (deleteByCode db c).1 c u id now,
         .created c u (b ++ "/" ++ c) 0 now, 0)) := by
  have hex : codeExists db c = true := by
    by_contra hnex
    rw [Bool.not_eq_true] at hnex
    simp [deleteByCode, hnex] at hdel
  have hdb1 : (deleteByCode db c).1 = db.filter (fun l => !(l.code == c)) := by
    simp [deleteByCode, hex]
  have hnex1 : codeExists (deleteByCode db c).1 c = false := by
    rw [hdb1]
    unfold codeExists
    rw [List.any_eq_false]
    intro x hx
    have hkeep := (List.mem_filter.mp hx).2
    rw [Bool.not_eq_true'] at hkeep
    simp [hkeep]
  have hlook : lookupByCode (deleteByCode db c).1 c = none := by
    unfold lookupByCode
    rw [List.find?_eq_none]
    intro x hx
    rw [hdb1] at hx
    have hkeep := (List.mem_filter.mp hx).2
    rw [Bool.not_eq_true'] at hkeep
    simp [hkeep]
  refine ⟨hlook, ?_, ?_, ?_⟩
  · unfold recordClickAndFetch
    rw [hlook]
  · generalize hg : (deleteByCode db c).1 = db1 at hnex1 ⊢
    simp [deleteByCode, hnex1]
  · intro hvc hvu
    have hune := validateUrl_ne_empty hvu
    have hcne : (c == "") = false := by
      cases hcc : c == "" with
      | false => rfl
      | true =>
        have hc0 : c = "" := by simpa using hcc
        subst hc0
        exact absurd hvc (by decide)
    have hcond : ((u == "") || !validateUrl u) = false := by rw [hune, hvu]; rfl
    unfold POST
    simp only [hcond, Bool.false_eq_true, if_false, hcne, hvc, if_true]
    simp [insertStep, hnex1]

theorem c7_deletion_finality_witness :
    getByCode (deleteByCode [demoLink] "abc123").1 "abc123" = none ∧
    recordClickAndFetch (deleteByCode [demoLink] "abc123").1 "abc123" 5
      = ((deleteByCode [demoLink] "abc123").1, .notFound) ∧
    POST (deleteByCode [demoLink] "abc123").1 ⟨"https://example.com", some "abc123"⟩
        constZero 2 5 "b"
      = (insertLink (deleteByCode [demoLink] "abc123").1 "abc123" "https://example.com" 2 5,
         .created "abc123" "https://example.com" ("b" ++ "/" ++ "abc123") 0 5, 0) := by
  have h := c7_deletion_finality [demoLink] "abc123" "https://example.com" constZero 2 5 "b"
    (by decide)
  exact ⟨h.1, h.2.1, h.2.2.2 (by decide) (by decide)⟩

/-- C3: a create request with a nonempty custom code: a failing format
check is rejected with invalidCodeFormat leaving the store unchanged; a
passing code is used unchanged with zero existence-check probes — the
uniqueness constraint at insert rejects an already-stored code with
codeTaken (409) leaving the store unchanged, and a free code is inserted
as given. -/
theorem c3_custom_code (db : DB) (req : CreateLinkRequest) (r : Nat → Fin 62) (id now : Nat)
    (b : String) (c : String) (hc : req.customCode = some c) (hne : c ≠ "")
    (hurl : validateUrl req.url = true) :
    (validateCode c = false → POST db req r id now b = (db, .invalidCodeFormat, 0)) ∧
    (validateCode c = true →
      (POST db req r id now b).2.2 = 0 ∧
      (codeExists db c = true → POST db req r id now b = (db, .codeTaken, 0)) ∧
      (codeExists db c = false →
        POST db req r id now b =
          (insertLink db c req.url id now, .created c req.url (b ++ "/" ++ c) 0 now, 0))) := by
  have hune := validateUrl_ne_empty hurl
  have hcond : ((req.url == "") || !validateUrl req.url) = false := by rw [hune, hurl]; rfl
  have hcne : (c == "") = false := by
    cases hcc : c == "" with
    | false => rfl
    | true => exact absurd (by simpa using hcc) hne
  have hpost : POST db req r id now b =
      (if validateCode c = true then insertStep db c req.url id now b 0
       else (db, .invalidCodeFormat, 0)) := by
    simp only [POST, hc, hcond, Bool.false_eq_true, if_false, hcne]
  constructor
  · intro hvc
    rw [hpost, if_neg (by simp [hvc])]
  · intro hvc
    refine ⟨?_, ?_, ?_⟩
    · rw [hpost, if_pos hvc]
      rcases insertStep_characterize db c req.url id now b 0 with ⟨_, he⟩ | ⟨_, he⟩ <;> rw [he]
    · intro hex
      rw [hpost, if_pos hvc]
      simp [insertStep, hex]
    · intro hex
      rw [hpost, if_pos hvc]
      simp [insertStep, hex]

theorem c3_custom_code_witness :
    POST [] ⟨"https://example.com", some "ab"⟩ constZero 2 5 "b"
      = ([], .invalidCodeFormat, 0) ∧
    POST [demoLink] ⟨"https://example.com", some "abc123"⟩ constZero 2 5 "b"
      = ([demoLink], .codeTaken, 0) := by
  have h1 := (c3_custom_code [] ⟨"https://example.com", some "ab"⟩ constZero 2 5 "b" "ab"
    rfl (by decide) (by decide)).1 (by decide)
  have h2 := ((c3_custom_code [demoLink] ⟨"https://example.com", some "abc123"⟩ constZero 2 5
    "b" "abc123" rfl (by decide) (by decide)).2 (by decide)).2.1 (by decide)
  exact ⟨h1, h2⟩

/-- C9: the list handler returns every stored link — its output is a
permutation of the table, of the same length, membership unchanged — in
created_at descending order, with no pagination. -/
theorem c9_list_all (db : DB) :
    List.Perm (listAll db) db ∧
    (∀ l, l ∈ listAll db ↔ l ∈ db) ∧
    (listAll db).length = db.length ∧
    List.Pairwise (fun a b : Link => b.created_at ≤ a.created_at) (listAll db) := by
  have hperm : List.Perm (listAll db) db := List.mergeSort_perm db _
  refine ⟨hperm, fun l => hperm.mem_iff, hperm.length_eq, ?_⟩
  have hs := @List.sorted_mergeSort Link
    (fun a b : Link => decide (b.created_at ≤ a.created_at))
    (fun a b c hab hbc => by
      simp only [decide_eq_true_eq] at hab hbc ⊢
      omega)
    (fun a b => by
      rcases Nat.le_total b.created_at a.created_at with hle | hle <;> simp [hle])
    db
  exact hs.imp (fun hab => by simpa using hab)

end TinyLink
